import Mathlib

/-!
# Verification of the pabs-tv playback engine (src/pabs-tv-client2.py)

A shallow embedding of the playback-orchestration core of
`src/pabs-tv-client2.py` together with proofs about it.

Conventions used throughout:

* Wall-clock time for the per-item playback driver is modelled in *ticks* of
  0.1 s — the polling interval of the image hold loop and of the inter-item
  gap loop (`time.sleep(0.1)` in the source).  An image `duration` of `d`
  seconds is `10 * d` ticks.
* The `stop_all_event` threading event is modelled as a timeline
  `Nat → Bool` giving the value of `stop_all_event.is_set()` at each tick.
* Python/JSON structured data (playlists, command payloads, scheduled
  entries) is modelled by the inductive type `JVal`; Python `dict`s are
  association lists with insertion-order semantics and unique keys, matching
  the behaviour of Python's `dict` operations (`get`, item assignment keeps
  the position of an existing key, `pop` removes it, `setdefault` appends a
  missing key at the end).
* Python object identity and in-place mutation (needed only for the
  `get_state` snapshot claim) is modelled explicitly by a small heap of
  numbered objects, see the `HVal`/`HObj`/`Heap` section.
-/

namespace PabsTv

/-! ## Tick-level model of the per-item playback driver

`play_image_persistent` (source lines 435–453) and `handle_item_play`
(source lines 720–759), restricted to `kind == "image"` items, which is the
kind the image-hold claims are about.  The outcome of `_mpv_loadfile` is an
environment parameter (`loadOk`), since it depends on the external player
process; the `stop_all_event` flag is the timeline `stop`.
-/

/-- Timeline of `stop_all_event.is_set()`: value of the flag at each tick. -/
abbrev StopSig := Nat → Bool

/-- The hold loop of `play_image_persistent` (source lines 443–448):

```python
t0 = time.time()
while (time.time() - t0) < secs:
    if stop_all_event.is_set():
        _mpv_stop_playback()
        return False
    time.sleep(0.1)
```

`holdImage stop t r` runs the loop starting at tick `t` with `r` polling
iterations left (one iteration per 0.1 s tick).  It returns
`(ok, exit tick)`.  Note that the loop consults *only* the wall clock and
`stop_all_event`; the engine's `paused` flag is not read anywhere in it. -/
def holdImage (stop : StopSig) : Nat → Nat → Bool × Nat
  | t, 0 => (true, t)
  | t, r + 1 => if stop t then (false, t) else holdImage stop (t + 1) r

/-- `secs = int(duration or 8)` (source line 442): a missing or zero
(falsy) duration is replaced by 8 seconds. -/
def effSecs : Option Nat → Nat
  | none => 8
  | some 0 => 8
  | some d => d

/-- `play_image_persistent(src, duration)` (source lines 435–453): load the
image (outcome `loadOk`, from `_mpv_loadfile`), then hold it on screen for
`int(duration or 8)` seconds of wall-clock time, polling `stop_all_event`
every 0.1 s; a set stop flag aborts with `False` at that tick.  The final
`_mpv_stop_playback(); _wait_until_idle(max_wait=2)` on success only leaves
the player idle and is modelled as taking no on-screen time.  Returns
`(result, exit tick)`. -/
def play_image_persistent (loadOk : Bool) (stop : StopSig) (t : Nat)
    (duration : Option Nat) : Bool × Nat :=
  if loadOk then holdImage stop t (10 * effSecs duration)
  else (false, t)

/-- A status event published by `handle_item_play` on the now-playing
topic: `{"event": "start", ...}` or `{"event": "end", "ok": ...}`, tagged
with the tick at which it is emitted. -/
inductive PEvent where
  | evstart (t : Nat)
  | evend (t : Nat) (ok : Bool)
  deriving DecidableEq, Repr

/-- The three possible return values of `handle_item_play`. -/
inductive PlayResult where
  | ok
  | error
  | stopped
  deriving DecidableEq, Repr

/-- The attempt loop of `handle_item_play` (source lines 730–759) for an
image item, with `n` attempts left out of the `retries + 1` budget:

```python
for _attempt in range(int(retries or 0) + 1):
    if stop_all_event.is_set():
        _mpv_stop_playback()
        return "stopped"
    ... publish "start" ...
    ok = play_image_persistent(full_path, dur or 8)
    ... publish "end" (ok) ...
    if ok:
        return "ok"
    time.sleep(0.5)
return "error"
```

`attempt` numbers the current attempt (index into `loadOk`), `t` is the
current tick; the `time.sleep(0.5)` backoff after a failed attempt is 5
ticks.  Returns `(result, emitted events, exit tick)`. -/
def handleGo (stop : StopSig) (loadOk : Nat → Bool) (duration : Option Nat) :
    Nat → Nat → Nat → PlayResult × List PEvent × Nat
  | _, t, 0 => (.error, [], t)
  | attempt, t, n + 1 =>
    if stop t then (.stopped, [], t)
    else
      let r1 := play_image_persistent (loadOk attempt) stop t duration
      let evs := [PEvent.evstart t, PEvent.evend r1.2 r1.1]
      if r1.1 then (.ok, evs, r1.2)
      else
        let r2 := handleGo stop loadOk duration (attempt + 1) (r1.2 + 5) n
        (r2.1, evs ++ r2.2.1, r2.2.2)

/-- `handle_item_play(item, retries, ...)` (source lines 720–759) for an
image item, starting at tick 0: `retries + 1` total attempts. -/
def handle_item_play (stop : StopSig) (loadOk : Nat → Bool)
    (duration : Option Nat) (retries : Nat) : PlayResult × List PEvent × Nat :=
  handleGo stop loadOk duration 0 0 (retries + 1)

/-- Number of `"start"` events in an event list. -/
def countStarts (evs : List PEvent) : Nat :=
  (evs.filter fun e => match e with | .evstart _ => true | _ => false).length

/-- Number of `"end"` events in an event list. -/
def countEnds (evs : List PEvent) : Nat :=
  (evs.filter fun e => match e with | .evend _ _ => true | _ => false).length

/-- Every `"end"` event in the list carries `ok = false`. -/
def endsAllFailed (evs : List PEvent) : Bool :=
  evs.all fun e => match e with | .evend _ ok => !ok | _ => true

/-- The stop timeline that is unset before tick `s` and set from tick `s`
on (the `stop_all_event` flag raised once at tick `s` and not cleared). -/
def stopFrom (s : Nat) : StopSig := fun t => decide (s ≤ t)

/-! ## Time-of-day schedule windows

`parse_time_str` (source lines 581–591) and `is_within_schedule` (source
lines 593–610).  A Python `datetime.time` value is modelled by `PyTime`
(hour, minute, second, microsecond); `datetime.time` comparison is
lexicographic on these four fields.  The times built by `parse_time_str`
have `second = micro = 0` and the `datetime.time(hour=h, minute=m)`
constructor raises (caught, giving `None`) unless `0 ≤ h ≤ 23` and
`0 ≤ m ≤ 59`. -/

/-- Python whitespace (the characters removed by `str.strip()`, restricted
to the four common ones). -/
def isPySpace (c : Char) : Bool :=
  c == ' ' || c == '\t' || c == '\n' || c == '\r'

/-- `str.strip()` on a character list. -/
def trimChars (cs : List Char) : List Char :=
  ((cs.dropWhile isPySpace).reverse.dropWhile isPySpace).reverse

/-- `str.split(sep)` for a one-character separator, on a character list
(Python's `split` with an explicit separator keeps empty fields). -/
def splitCols (sep : Char) : List Char → List (List Char)
  | [] => [[]]
  | c :: rest =>
    match splitCols sep rest with
    | [] => [[]]
    | g :: gs => if c == sep then [] :: g :: gs else (c :: g) :: gs

/-- Digit run of Python `int(...)`: `none` on an empty run or a non-digit
character. -/
def parseNatAux : List Char → Nat → Option Nat
  | [], acc => some acc
  | c :: rest, acc =>
    if 48 ≤ c.toNat ∧ c.toNat ≤ 57 then parseNatAux rest (acc * 10 + (c.toNat - 48))
    else none

/-- Python `int(str)` on a character list: an optional sign followed by at
least one digit (surrounding whitespace already removed). -/
def parseIntChars : List Char → Option Int
  | [] => none
  | '-' :: rest =>
    match rest with
    | [] => none
    | _ => (parseNatAux rest 0).map fun n => -(n : Int)
  | '+' :: rest =>
    match rest with
    | [] => none
    | _ => (parseNatAux rest 0).map fun n => (n : Int)
  | cs => (parseNatAux cs 0).map fun n => (n : Int)

/-- A Python `datetime.time` value. -/
structure PyTime where
  hour : Nat
  minute : Nat
  second : Nat
  micro : Nat
  deriving DecidableEq, Repr

/-- Lexicographic `<=` on `datetime.time` values. -/
def timeLe (a b : PyTime) : Bool :=
  decide (a.hour < b.hour) ||
    (a.hour == b.hour &&
      (decide (a.minute < b.minute) ||
        (a.minute == b.minute &&
          (decide (a.second < b.second) ||
            (a.second == b.second && decide (a.micro ≤ b.micro))))))

/-- Python truthiness of an optional string argument: `None` and `""` are
falsy. -/
def strFalsy : Option String → Bool
  | none => true
  | some s => s == ""

/-- `parse_time_str(time_str)` (source lines 581–591):

```python
if not time_str:
    return None
try:
    parts = time_str.strip().split(":")
    if len(parts) != 2:
        return None
    h, m = int(parts[0]), int(parts[1])
    return dt_time(hour=h, minute=m)
except Exception:
    return None
```

`int(...)` is modelled by `parseIntChars` (an optional sign followed by
digits; Python additionally strips whitespace around each part and allows
underscores, which no caller of this function uses) and the `dt_time`
constructor bounds are checked explicitly. -/
def parse_time_str (o : Option String) : Option PyTime :=
  match o with
  | none => none
  | some s =>
    if s == "" then none
    else
      match splitCols ':' (trimChars s.data) with
      | [hs, ms] =>
        match parseIntChars hs, parseIntChars ms with
        | some h, some m =>
          if 0 ≤ h ∧ h < 24 ∧ 0 ≤ m ∧ m < 60 then
            some ⟨h.toNat, m.toNat, 0, 0⟩
          else none
        | _, _ => none
      | _ => none

/-- `is_within_schedule(start_time_str, end_time_str)` (source lines
593–610), with the current time of day `now` made an explicit argument:

```python
if not start_time_str and not end_time_str:
    return True
start_t = parse_time_str(start_time_str)
end_t = parse_time_str(end_time_str)
if not start_t:
    return True
now = datetime.now().time()
if not end_t:
    return now >= start_t
if start_t <= end_t:
    return start_t <= now <= end_t
return now >= start_t or now <= end_t
``` -/
def is_within_schedule (startS endS : Option String) (now : PyTime) : Bool :=
  if strFalsy startS && strFalsy endS then true
  else
    match parse_time_str startS with
    | none => true
    | some startT =>
      match parse_time_str endS with
      | none => timeLe startT now
      | some endT =>
        if timeLe startT endT then timeLe startT now && timeLe now endT
        else timeLe startT now || timeLe now endT

/-! ## Media path resolution

`build_media_path` (source lines 422–433).  The kind-specific media roots
`MEDIA_VIDEO_DIR = MEDIA_DIR / "videos"` and
`MEDIA_IMAGE_DIR = MEDIA_DIR / "images"` (source lines 115–116) are
configuration-dependent, so they are parameters here; `str(dir / name)` for
a bare file name is `str(dir) ++ "/" ++ name`. -/

/-- `str.startswith(pat)` on character lists. -/
def leadsWith : List Char → List Char → Bool
  | _, [] => true
  | [], _ :: _ => false
  | c :: cs, p :: ps => c == p && leadsWith cs ps

/-- `build_media_path(src, kind)` (source lines 422–433):

```python
if not src:
    return src
if src.startswith("/") or src.startswith("http://") or src.startswith("https://"):
    return src
if "/" in src or "\\" in src:
    return src
if kind == "video":
    return str(MEDIA_VIDEO_DIR / src)
if kind == "image":
    return str(MEDIA_IMAGE_DIR / src)
return src
``` -/
def build_media_path (videoRoot imageRoot : String) (src kind : String) : String :=
  if src == "" then src
  else if leadsWith src.data "/".data || leadsWith src.data "http://".data ||
      leadsWith src.data "https://".data then src
  else if src.data.any (· == '/') || src.data.any (· == '\\') then src
  else if kind == "video" then videoRoot ++ "/" ++ src
  else if kind == "image" then imageRoot ++ "/" ++ src
  else src

/-! ## JSON-like structured data

Playlists, command payloads and scheduled entries are JSON values
(`json.loads` output).  Python `dict`s are association lists with
insertion-order semantics; JSON decoding never produces duplicate keys. -/

/-- A Python/JSON value. -/
inductive JVal where
  | null
  | jbool (b : Bool)
  | jint (n : Int)
  | jstr (s : String)
  | jlist (xs : List JVal)
  | jdict (fields : List (String × JVal))
  deriving Repr

mutual
/-- Python `==` on JSON values. -/
def jvalBeq : JVal → JVal → Bool
  | .null, .null => true
  | .jbool a, .jbool b => a == b
  | .jint a, .jint b => a == b
  | .jstr a, .jstr b => a == b
  | .jlist xs, .jlist ys => jlistBeq xs ys
  | .jdict fs, .jdict gs => jfieldsBeq fs gs
  | _, _ => false

/-- Python `==` on lists of JSON values. -/
def jlistBeq : List JVal → List JVal → Bool
  | [], [] => true
  | x :: xs, y :: ys => jvalBeq x y && jlistBeq xs ys
  | _, _ => false

/-- Python `==` on dict field lists (insertion-order sensitive; JSON dicts
produced by this program always agree on order when they agree on fields). -/
def jfieldsBeq : List (String × JVal) → List (String × JVal) → Bool
  | [], [] => true
  | (k, v) :: xs, (k2, v2) :: ys => k == k2 && jvalBeq v v2 && jfieldsBeq xs ys
  | _, _ => false
end

/-- Python truthiness of a JSON value: `None`, `False`, `0`, `""`, `[]`
and `{}` are falsy. -/
def jvalFalsy : JVal → Bool
  | .null => true
  | .jbool b => !b
  | .jint n => n == 0
  | .jstr s => s == ""
  | .jlist xs => xs.isEmpty
  | .jdict fs => fs.isEmpty

/-- Python truthiness of a `dict.get` result (`None` when the key is
missing). -/
def optFalsy : Option JVal → Bool
  | none => true
  | some v => jvalFalsy v

/-- `d.get(k)` on a dict's field list. -/
def jget (fields : List (String × JVal)) (k : String) : Option JVal :=
  match fields with
  | [] => none
  | (k2, v) :: rest => if k2 == k then some v else jget rest k

/-- `d[k] = v` on a dict's field list: an existing key keeps its position
and gets the new value, a new key is appended at the end. -/
def jset (fields : List (String × JVal)) (k : String) (v : JVal) :
    List (String × JVal) :=
  match fields with
  | [] => [(k, v)]
  | (k2, v2) :: rest => if k2 == k then (k2, v) :: rest else (k2, v2) :: jset rest k v

/-- `d.pop(k)` on a dict's field list (the removal part). -/
def jerase (fields : List (String × JVal)) (k : String) : List (String × JVal) :=
  match fields with
  | [] => []
  | (k2, v2) :: rest => if k2 == k then rest else (k2, v2) :: jerase rest k

/-- `d.setdefault(k, v)`: append the key at the end if it is missing. -/
def jsetdefault (fields : List (String × JVal)) (k : String) (v : JVal) :
    List (String × JVal) :=
  if (jget fields k).isSome then fields else fields ++ [(k, v)]

/-- `d.get(k)` on a JSON value that is a dict. -/
def jdget (d : JVal) (k : String) : Option JVal :=
  match d with
  | .jdict fs => jget fs k
  | _ => none

/-- Whether a JSON value is a mapping (`isinstance(it, dict)`). -/
def jIsDict : JVal → Bool
  | .jdict _ => true
  | _ => false

/-! ## Playlist normalization

`normalize_playlist` (source lines 615–639). -/

/-- The per-item legacy alias rewrite of `normalize_playlist` (source
lines 627–628):

```python
if "kind" not in it and "type" in it:
    it["kind"] = it.pop("type")
```

`pop` removes `"type"`, then the assignment appends `"kind"` (absent by
the branch condition) at the end. -/
def alias_kind (ifs : List (String × JVal)) : List (String × JVal) :=
  if (jget ifs "kind").isNone && (jget ifs "type").isSome then
    jset (jerase ifs "type") "kind" ((jget ifs "type").getD .null)
  else ifs

/-- The body of the item loop of `normalize_playlist` (source lines
624–629): non-mapping elements are skipped (`continue`), mapping elements
get the `kind`/`type` alias rewrite and are kept. -/
def norm_item : JVal → Option JVal
  | .jdict ifs => some (.jdict (alias_kind ifs))
  | _ => none

/-- The `"list"` → `"items"` legacy alias of `normalize_playlist` (source
lines 619–620):

```python
if "items" not in data and "list" in data:
    data["items"] = data.pop("list")
```

`pop` removes `"list"`, then the assignment appends `"items"` (absent by
the branch condition) at the end. -/
def alias_items (fields : List (String × JVal)) : List (String × JVal) :=
  if (jget fields "items").isNone && (jget fields "list").isSome then
    jset (jerase fields "list") "items" ((jget fields "list").getD .null)
  else fields

/-- `items = data.get("items") or []` followed by iteration (source lines
622–624): a missing or falsy value gives the empty list; a list gives its
elements.  A truthy non-list value is not a structurally valid playlist
(Python would raise `TypeError` on an `int`, or iterate the characters or
keys of a `str`/`dict`, every one of which is a non-mapping and is
dropped); the model yields the empty item list there, see `struct_valid`. -/
def items_of (fields : List (String × JVal)) : List JVal :=
  match jget fields "items" with
  | some (.jlist xs) => xs
  | _ => []

/-- Structural validity of a playlist value: the value reached by
`data.get("items")` after the `"list"` alias, if present and truthy, is a
list.  On these inputs the model agrees with the Python source exactly. -/
def struct_valid : JVal → Bool
  | .jdict fields =>
    match jget (alias_items fields) "items" with
    | none => true
    | some (.jlist _) => true
    | some w => jvalFalsy w
  | _ => true

/-- The values of the seven `data.setdefault(...)` calls of
`normalize_playlist` (source lines 632–638), in source order. -/
def default_pairs : List (String × JVal) :=
  [("shuffle", .jbool false), ("black_between", .jint 0), ("retries", .jint 0),
   ("show_time", .jbool false), ("schedule_enabled", .jbool false),
   ("schedule_start", .null), ("schedule_end", .null)]

/-- The seven `data.setdefault(...)` calls, applied in source order. -/
def apply_defaults (fields : List (String × JVal)) : List (String × JVal) :=
  default_pairs.foldl (fun acc kv => jsetdefault acc kv.1 kv.2) fields

/-- The body of `normalize_playlist` on the field list of a mapping
input. -/
def normalize_fields (fields0 : List (String × JVal)) : List (String × JVal) :=
  let fields1 := alias_items fields0
  let normItems := (items_of fields1).filterMap norm_item
  apply_defaults (jset fields1 "items" (.jlist normItems))

/-- `normalize_playlist(data)` (source lines 615–639):

```python
if not isinstance(data, dict):
    return {"items": []}
if "items" not in data and "list" in data:
    data["items"] = data.pop("list")
items = data.get("items") or []
norm_items = []
for it in items:
    if not isinstance(it, dict):
        continue
    if "kind" not in it and "type" in it:
        it["kind"] = it.pop("type")
    norm_items.append(it)
data["items"] = norm_items
data.setdefault("shuffle", False)
data.setdefault("black_between", 0)
data.setdefault("retries", 0)
data.setdefault("show_time", False)
data.setdefault("schedule_enabled", False)
data.setdefault("schedule_start", None)
data.setdefault("schedule_end", None)
return data
``` -/
def normalize_playlist (data : JVal) : JVal :=
  match data with
  | .jdict fields0 => .jdict (normalize_fields fields0)
  | _ => .jdict [("items", .jlist [])]

/-- The item list supplied by the input (its `"items"` key, or the legacy
`"list"` key when `"items"` is absent); empty for non-mapping inputs. -/
def raw_items (data : JVal) : List JVal :=
  match data with
  | .jdict fields => items_of (alias_items fields)
  | _ => []

/-! ## The `scheduler.add` command handler

`on_message`, branch `action == "scheduler.add"` (source lines 1165–1192).
`data` is the decoded command payload (a dict field list) and `scheduled`
the current `scheduled_playlists` list from the engine state. -/

/-- The four rejection events and the success event the handler can
publish. -/
inductive AddOutcome where
  | errMissing
  | errTime
  | errItems
  | warnDup
  | success
  deriving DecidableEq, Repr

/-- Python `==` between two `dict.get` results. -/
def optBeq : Option JVal → Option JVal → Bool
  | none, none => true
  | some a, some b => jvalBeq a b
  | _, _ => false

/-- `parse_time_str` applied to a JSON value: only a truthy string can
parse (any non-string raises inside the `try`, giving `None`). -/
def parse_time_jval : Option JVal → Option PyTime
  | some (.jstr s) => parse_time_str (some s)
  | _ => none

/-- The `scheduler.add` handler (source lines 1165–1192):

```python
playlist_name = data.get("name")
start_time = data.get("start_time")
playlist_data = data.get("playlist")
if not playlist_name or not start_time or not playlist_data:
    publish(... "scheduler.add.error" ... "missing name/start_time/playlist")
    return
if not parse_time_str(start_time):
    publish(... "scheduler.add.error" ... "invalid start_time (HH:MM)")
    return
playlist_data = normalize_playlist(playlist_data)
if not playlist_data.get("items"):
    publish(... "scheduler.add.error" ... "playlist must include items")
    return
scheduled = get_state().get("scheduled_playlists", [])
if any(s.get("name") == playlist_name and s.get("start_time") == start_time for s in scheduled):
    publish(... "scheduler.add.warning" ... "already exists")
    return
scheduled.append({"name": ..., "start_time": ..., "playlist": ...})
set_state(scheduled_playlists=scheduled)
publish(... "scheduler.add.success" ...)
```

Returns the published outcome and the resulting `scheduled_playlists`
value of the engine state. -/
def scheduler_add (data : List (String × JVal)) (scheduled : List JVal) :
    AddOutcome × List JVal :=
  if optFalsy (jget data "name") || optFalsy (jget data "start_time") ||
      optFalsy (jget data "playlist") then
    (.errMissing, scheduled)
  else if (parse_time_jval (jget data "start_time")).isNone then
    (.errTime, scheduled)
  else if optFalsy (jdget (normalize_playlist ((jget data "playlist").getD .null)) "items") then
    (.errItems, scheduled)
  else if scheduled.any fun s =>
      optBeq (jdget s "name") (jget data "name") &&
        optBeq (jdget s "start_time") (jget data "start_time") then
    (.warnDup, scheduled)
  else
    (.success, scheduled ++
      [.jdict [("name", (jget data "name").getD .null),
               ("start_time", (jget data "start_time").getD .null),
               ("playlist", normalize_playlist ((jget data "playlist").getD .null))]])

/-! ## The scheduler thread

`scheduler_thread_fn` (source lines 873–918): every 10 s it reads the
wall-clock minute, skips the tick if that minute was already processed
(`last_check_minute`), and otherwise activates every scheduled entry whose
parsed `start_time` equals the current `(hour, minute)`. -/

/-- Whether one scheduled entry activates on a processed tick at minute
`(nh, nm)` (source lines 888–897): entries with a falsy `start_time` or
`playlist`, or an unparseable `start_time`, are skipped. -/
def sched_entry_fires (nh nm : Nat) (e : JVal) : Bool :=
  let st := jdget e "start_time"
  let pl := jdget e "playlist"
  if optFalsy st || optFalsy pl then false
  else
    match parse_time_jval st with
    | none => false
    | some t => t.hour == nh && t.minute == nm

/-- One iteration of the scheduler loop at wall-clock minute `now` (source
lines 876–897).  Returns the new `last_check_minute`, whether the tick was
processed (not deduplicated away), and the entries activated on it. -/
def scheduler_tick (entries : List JVal) (last : Option (Nat × Nat))
    (now : Nat × Nat) : Option (Nat × Nat) × Bool × List JVal :=
  if last = some now then (last, false, [])
  else (some now, true, entries.filter (sched_entry_fires now.1 now.2))

/-- The scheduler loop over a list of observed wall-clock minutes (one per
10 s tick), threading `last_check_minute`; yields per tick whether it was
processed and which entries activated. -/
def scheduler_run (entries : List JVal) :
    Option (Nat × Nat) → List (Nat × Nat) → List (Bool × List JVal)
  | _, [] => []
  | last, now :: rest =>
    let r := scheduler_tick entries last now
    (r.2.1, r.2.2) :: scheduler_run entries r.1 rest

/-- Number of processed (non-deduplicated) ticks in a scheduler run. -/
def processedCount (run : List (Bool × List JVal)) : Nat :=
  (run.filter fun p => p.1).length

/-- Number of ticks of a run at which the given entry activated. -/
def activationTicks (e : JVal) (run : List (Bool × List JVal)) : Nat :=
  (run.filter fun p => p.2.any fun x => jvalBeq x e).length

/-! ## Heap model for `get_state` / `set_state`

`set_state` and `get_state` (source lines 241–247):

```python
def set_state(**kwargs):
    with state_lock:
        state.update(kwargs)

def get_state():
    with state_lock:
        return dict(state)
```

`dict(state)` builds a *new top-level dict* holding the *same references*
as the original — a shallow copy.  To express sharing we model Python
objects explicitly: compound objects (dicts, lists) live in a heap at
numbered addresses and values are either immutable primitives or
references.  The engine's `state` dict lives at address `0`. -/

/-- A Python value slot: an immutable primitive, or a reference to a heap
object. -/
inductive HVal where
  | prim (s : String)
  | href (a : Nat)
  deriving DecidableEq, Repr

/-- A heap object: a dict (field list) or a list. -/
inductive HObj where
  | hdict (fields : List (String × HVal))
  | harr (elems : List HVal)
  deriving DecidableEq, Repr

/-- The heap: objects by address. -/
abbrev Heap := List (Nat × HObj)

/-- Read the object at an address. -/
def hlookup (h : Heap) (a : Nat) : Option HObj :=
  match h with
  | [] => none
  | (b, o) :: rest => if b == a then some o else hlookup rest a

/-- Write the object at an address (allocating it if absent). -/
def hwrite (h : Heap) (a : Nat) (o : HObj) : Heap :=
  match h with
  | [] => [(a, o)]
  | (b, o2) :: rest => if b == a then (b, o) :: rest else (b, o2) :: hwrite rest a o

/-- Field lookup in a heap dict's field list. -/
def hfget (fields : List (String × HVal)) (k : String) : Option HVal :=
  match fields with
  | [] => none
  | (k2, v) :: rest => if k2 == k then some v else hfget rest k

/-- Field assignment in a heap dict's field list (Python `d[k] = v`). -/
def hfset (fields : List (String × HVal)) (k : String) (v : HVal) :
    List (String × HVal) :=
  match fields with
  | [] => [(k, v)]
  | (k2, v2) :: rest => if k2 == k then (k2, v) :: rest else (k2, v2) :: hfset rest k v

/-- `get_state()` = `dict(state)`: allocate a fresh dict object holding the
same field list (hence the same nested references) as the state dict at
address 0.  Returns the new heap and the snapshot's address. -/
def get_state (h : Heap) (fresh : Nat) : Heap × Nat :=
  match hlookup h 0 with
  | some (.hdict fs) => (hwrite h fresh (.hdict fs), fresh)
  | _ => (h, fresh)

/-- `set_state(**kwargs)` = `state.update(kwargs)`: assign every given
field of the state dict at address 0, in one step. -/
def set_state (h : Heap) (kvs : List (String × HVal)) : Heap :=
  match hlookup h 0 with
  | some (.hdict fs) =>
    hwrite h 0 (.hdict (kvs.foldl (fun acc kv => hfset acc kv.1 kv.2) fs))
  | _ => h

/-- `lst.append(v)` through a reference: in-place mutation of the list
object at address `a`. -/
def harr_append (h : Heap) (a : Nat) (v : HVal) : Heap :=
  match hlookup h a with
  | some (.harr xs) => hwrite h a (.harr (xs ++ [v]))
  | _ => h

/-- What the engine sees for one of its state fields, one dereference
deep: the object its state dict (address 0) references under key `k`. -/
def engine_field_obj (h : Heap) (k : String) : Option HObj :=
  match hlookup h 0 with
  | some (.hdict fs) =>
    match hfget fs k with
    | some (.href a) => hlookup h a
    | _ => none
  | _ => none

/-! ## Lemmas about the tick-level playback driver -/

theorem holdImage_no_stop (stop : StopSig) (h : ∀ u, stop u = false) :
    ∀ r t, holdImage stop t r = (true, t + r) := by
  intro r
  induction r with
  | zero => intro t; simp [holdImage]
  | succ n ih =>
    intro t
    simp [holdImage, h t, ih (t + 1)]
    omega

theorem holdImage_stopFrom_hit (s : Nat) :
    ∀ r t, t ≤ s → s < t + r → holdImage (stopFrom s) t r = (false, s) := by
  intro r
  induction r with
  | zero => intro t h1 h2; omega
  | succ n ih =>
    intro t h1 h2
    by_cases hts : s ≤ t
    · have : t = s := le_antisymm h1 hts
      subst this
      simp [holdImage, stopFrom]
    · have hlt : t < s := by omega
      simp only [holdImage, stopFrom, decide_eq_true_eq]
      rw [if_neg (by omega)]
      exact ih (t + 1) (by omega) (by omega)

/-- Core of the retry-budget claim: with the stop flag never set and every
`_mpv_loadfile` failing, `n` remaining attempts produce outcome `"error"`,
`n` start events, `n` end events, all of them with `ok = false`. -/
theorem handleGo_all_fail (stop : StopSig) (loadOk : Nat → Bool)
    (dur : Option Nat) (hstop : ∀ u, stop u = false)
    (hload : ∀ a, loadOk a = false) :
    ∀ n a t,
      (handleGo stop loadOk dur a t n).1 = .error ∧
      countStarts (handleGo stop loadOk dur a t n).2.1 = n ∧
      countEnds (handleGo stop loadOk dur a t n).2.1 = n ∧
      endsAllFailed (handleGo stop loadOk dur a t n).2.1 = true := by
  intro n
  induction n with
  | zero =>
    intro a t
    simp [handleGo, countStarts, countEnds, endsAllFailed]
  | succ n ih =>
    intro a t
    obtain ⟨ih1, ih2, ih3, ih4⟩ := ih (a + 1) (t + 5)
    simp only [handleGo, hstop t, if_false, play_image_persistent, hload a,
      Bool.false_eq_true, countStarts, countEnds, endsAllFailed] at *
    simp_all [List.filter, List.all]

/-! ## Claim C1 — the image hold loop and the paused flag -/

/-- C1 counterexample.  The claim states that for an image item with
`duration = 10` that is paused for the first 5 seconds of real time, at
least 9.5 s of remaining on-screen time still elapse after resume before
the item completes.  In the source, the hold loop of
`play_image_persistent` (lines 443–448) compares `time.time() - t0`
against `secs` and polls only `stop_all_event`; the engine's `paused` flag
is not an input of the computation at all.  Hence with `duration = 10`
(100 ticks of 0.1 s), pause during ticks 0–49 and resume at tick 50, the
hold still completes successfully at tick 100, so only `100 - 50 = 50`
ticks (5 s) — fewer than 95 ticks (9.5 s) — of on-screen time elapse after
resume. -/
theorem c1_pause_freeze_counterexample :
    (play_image_persistent true (fun _ => false) 0 (some 10)).1 = true ∧
    (play_image_persistent true (fun _ => false) 0 (some 10)).2 = 100 ∧
    (play_image_persistent true (fun _ => false) 0 (some 10)).2 - 50 < 95 := by
  decide

/-- C1 (amended): the per-item driver holds a successfully loaded image on
screen for exactly `int(duration or 8)` seconds of *wall-clock* time
(`10 * effSecs duration` ticks of 0.1 s) whenever the stop signal is never
set; the countdown is wall-clock and is not frozen by the paused flag,
which `play_image_persistent` never reads. -/
theorem c1_image_hold_wall_clock (stop : StopSig) (t : Nat)
    (dur : Option Nat) (h : ∀ u, stop u = false) :
    play_image_persistent true stop t dur = (true, t + 10 * effSecs dur) := by
  simp [play_image_persistent, holdImage_no_stop stop h]

/-- C1 witness: concrete instance of `c1_image_hold_wall_clock` at
`duration = 10`, never-set stop signal, start tick 0. -/
theorem c1_image_hold_wall_clock_witness :
    play_image_persistent true (fun _ => false) 0 (some 10) = (true, 100) := by
  have h := c1_image_hold_wall_clock (fun _ => false) 0 (some 10) (fun _ => rfl)
  simpa using h

/-! ## Claim C2 — stop signal while playing -/

/-- C2 counterexample.  The claim states that whenever the stop signal is
raised while the driver is playing an item, the item's playback result is
`"stopped"`, never `"ok"` and never `"error"`.  Take an image item with
`duration = 1` and `retries = 0` and raise the stop flag at tick 3, 0.3 s
into the (only) playback attempt: the hold loop aborts, the attempt's end
event carries `ok = false`, and — the retry budget being exhausted — the
`for` loop of `handle_item_play` (lines 730–759) falls through and returns
`"error"`, not `"stopped"`. -/
theorem c2_stop_mid_item_counterexample :
    (handle_item_play (stopFrom 3) (fun _ => true) (some 1) 0).1 = PlayResult.error ∧
    (handle_item_play (stopFrom 3) (fun _ => true) (some 1) 0).1 ≠ PlayResult.stopped := by
  decide

/-- C2 (amended): if the stop signal is first raised at tick `s` strictly
inside the first playback attempt of an image item (`0 < s` and `s` before
the natural end of the hold), that attempt is aborted immediately and its
end event carries `ok = false`; no further playback attempt is started.
The driver then returns `"stopped"` if retry attempts remained (the check
at the top of the next attempt), but returns `"error"` if the stop arrived
during the final attempt of the budget. -/
theorem c2_stop_short_circuit (retries : Nat) (dur : Option Nat) (s : Nat)
    (h0 : 0 < s) (hs : s < 10 * effSecs dur) :
    handle_item_play (stopFrom s) (fun _ => true) dur retries =
      ((if retries = 0 then PlayResult.error else PlayResult.stopped),
       [PEvent.evstart 0, PEvent.evend s false], s + 5) := by
  have hstop0 : stopFrom s 0 = false := by
    simp [stopFrom]; omega
  have hhold : holdImage (stopFrom s) 0 (10 * effSecs dur) = (false, s) :=
    holdImage_stopFrom_hit s (10 * effSecs dur) 0 (Nat.zero_le s) (by omega)
  unfold handle_item_play
  cases retries with
  | zero =>
    simp [handleGo, hstop0, play_image_persistent, hhold]
  | succ n =>
    have hstop5 : stopFrom s (s + 5) = true := by
      simp [stopFrom]
    simp [handleGo, hstop0, play_image_persistent, hhold, hstop5]

/-- C2 witness: concrete instance of `c2_stop_short_circuit` with
`duration = 1`, one retry remaining, stop raised at tick 3. -/
theorem c2_stop_short_circuit_witness :
    handle_item_play (stopFrom 3) (fun _ => true) (some 1) 1 =
      (PlayResult.stopped, [PEvent.evstart 0, PEvent.evend 3 false], 8) := by
  have h := c2_stop_short_circuit 1 (some 1) 3 (by decide) (by decide)
  simpa using h

/-! ## Claim C3 — the retry budget -/

/-- C3: for an item whose every playback attempt fails (every
`_mpv_loadfile` call fails) and with the stop signal never set,
`handle_item_play` performs exactly `retries + 1` playback attempts —
emitting exactly `retries + 1` start events and `retries + 1` end events,
each end event with `ok = false` — and returns `"error"`.  For
`retries = 2` this is 3 attempts and 3 start/end pairs. -/
theorem c3_retry_budget (retries : Nat) (stop : StopSig) (loadOk : Nat → Bool)
    (dur : Option Nat) (hstop : ∀ u, stop u = false)
    (hload : ∀ a, loadOk a = false) :
    (handle_item_play stop loadOk dur retries).1 = .error ∧
    countStarts (handle_item_play stop loadOk dur retries).2.1 = retries + 1 ∧
    countEnds (handle_item_play stop loadOk dur retries).2.1 = retries + 1 ∧
    endsAllFailed (handle_item_play stop loadOk dur retries).2.1 = true := by
  unfold handle_item_play
  exact handleGo_all_fail stop loadOk dur hstop hload (retries + 1) 0 0

/-- C3 witness: concrete instance of `c3_retry_budget` at `retries = 2`:
exactly 3 attempts, 3 start events and 3 end events, all failed, outcome
`"error"`. -/
theorem c3_retry_budget_witness :
    (handle_item_play (fun _ => false) (fun _ => false) (some 5) 2).1 = .error ∧
    countStarts (handle_item_play (fun _ => false) (fun _ => false) (some 5) 2).2.1 = 3 ∧
    countEnds (handle_item_play (fun _ => false) (fun _ => false) (some 5) 2).2.1 = 3 ∧
    endsAllFailed (handle_item_play (fun _ => false) (fun _ => false) (some 5) 2).2.1 = true :=
  c3_retry_budget 2 (fun _ => false) (fun _ => false) (some 5)
    (fun _ => rfl) (fun _ => rfl)

/-! ## Claim C5 — schedule-window semantics -/

theorem parse_some_not_falsy (o : Option String) (t : PyTime)
    (h : parse_time_str o = some t) : strFalsy o = false := by
  cases o with
  | none => simp [parse_time_str] at h
  | some s =>
    by_cases hs : s == ""
    · simp [parse_time_str, hs] at h
    · simp [strFalsy, hs]

theorem parse_none_time : parse_time_str none = none := rfl

theorem parse_2200 : parse_time_str (some "22:00") = some ⟨22, 0, 0, 0⟩ := by rfl

theorem parse_0600 : parse_time_str (some "06:00") = some ⟨6, 0, 0, 0⟩ := by rfl

theorem parse_0800 : parse_time_str (some "08:00") = some ⟨8, 0, 0, 0⟩ := by rfl

/-- C5: case analysis of `is_within_schedule` over an arbitrary time of
day `now` (with arbitrary seconds/microseconds in the concrete examples):
no parseable start means always active; only a start means active iff
`now ≥ start`; `start ≤ end` means active iff `start ≤ now ≤ end`;
`start > end` wraps past midnight (active iff `now ≥ start` or
`now ≤ end`).  For `start=22:00, end=06:00` the window is active at 23:30
and 05:59 and inactive at 12:00; for `start=08:00` with no end it is
inactive at 07:59 and active at 08:00 and 23:59. -/
theorem c5_is_within_schedule_cases (startS endS : Option String) (now : PyTime) :
    (parse_time_str startS = none → is_within_schedule startS endS now = true) ∧
    (∀ st, parse_time_str startS = some st → parse_time_str endS = none →
      is_within_schedule startS endS now = timeLe st now) ∧
    (∀ st et, parse_time_str startS = some st → parse_time_str endS = some et →
      timeLe st et = true →
      is_within_schedule startS endS now = (timeLe st now && timeLe now et)) ∧
    (∀ st et, parse_time_str startS = some st → parse_time_str endS = some et →
      timeLe st et = false →
      is_within_schedule startS endS now = (timeLe st now || timeLe now et)) ∧
    (∀ sec mic, is_within_schedule (some "22:00") (some "06:00") ⟨23, 30, sec, mic⟩ = true) ∧
    (∀ sec mic, is_within_schedule (some "22:00") (some "06:00") ⟨5, 59, sec, mic⟩ = true) ∧
    (∀ sec mic, is_within_schedule (some "22:00") (some "06:00") ⟨12, 0, sec, mic⟩ = false) ∧
    (∀ sec mic, is_within_schedule (some "08:00") none ⟨7, 59, sec, mic⟩ = false) ∧
    (∀ sec mic, is_within_schedule (some "08:00") none ⟨8, 0, sec, mic⟩ = true) ∧
    (∀ sec mic, is_within_schedule (some "08:00") none ⟨23, 59, sec, mic⟩ = true) := by
  refine ⟨?_, ?_, ?_, ?_, ?_, ?_, ?_, ?_, ?_, ?_⟩
  · intro h
    by_cases hf : strFalsy startS && strFalsy endS
    · simp [is_within_schedule, hf]
    · simp [is_within_schedule, hf, h]
  · intro st hst hend
    have hnf := parse_some_not_falsy startS st hst
    simp [is_within_schedule, hnf, hst, hend]
  · intro st et hst hend hle
    have hnf := parse_some_not_falsy startS st hst
    simp [is_within_schedule, hnf, hst, hend, hle]
  · intro st et hst hend hle
    have hnf := parse_some_not_falsy startS st hst
    simp [is_within_schedule, hnf, hst, hend, hle]
  · intro sec mic
    simp [is_within_schedule, parse_2200, parse_0600, strFalsy, timeLe]
  · intro sec mic
    simp [is_within_schedule, parse_2200, parse_0600, strFalsy, timeLe]
  · intro sec mic
    simp [is_within_schedule, parse_2200, parse_0600, strFalsy, timeLe]
  · intro sec mic
    simp [is_within_schedule, parse_0800, parse_none_time, strFalsy, timeLe]
  · intro sec mic
    simp [is_within_schedule, parse_0800, parse_none_time, strFalsy, timeLe]
    omega
  · intro sec mic
    simp [is_within_schedule, parse_0800, parse_none_time, strFalsy, timeLe]

/-- C5 witness: concrete instance of `c5_is_within_schedule_cases`: the
wrapping window `22:00`–`06:00` is active at 23:30:00. -/
theorem c5_is_within_schedule_cases_witness :
    is_within_schedule (some "22:00") (some "06:00") ⟨23, 30, 0, 0⟩ = true :=
  (c5_is_within_schedule_cases (some "22:00") (some "06:00")
    ⟨23, 30, 0, 0⟩).2.2.2.2.1 0 0

/-! ## Claim C9 — media path resolution -/

/-- C9: `build_media_path` returns the source verbatim when it is empty,
absolute (starts with `/`), a URL (starts with `http://` or `https://`),
or contains a path separator (`/` or `\`); a bare filename is joined
against the kind-specific media root for kinds `"video"` and `"image"`,
and returned unchanged for any other kind. -/
theorem c9_build_media_path_cases (videoRoot imageRoot src kind : String) :
    (src = "" → build_media_path videoRoot imageRoot src kind = src) ∧
    (leadsWith src.data "/".data = true ∨ leadsWith src.data "http://".data = true ∨
        leadsWith src.data "https://".data = true →
      build_media_path videoRoot imageRoot src kind = src) ∧
    (src.data.any (· == '/') = true ∨ src.data.any (· == '\\') = true →
      build_media_path videoRoot imageRoot src kind = src) ∧
    (src ≠ "" → leadsWith src.data "/".data = false →
      leadsWith src.data "http://".data = false →
      leadsWith src.data "https://".data = false → src.data.any (· == '/') = false →
      src.data.any (· == '\\') = false →
      build_media_path videoRoot imageRoot src kind =
        (if kind = "video" then videoRoot ++ "/" ++ src
         else if kind = "image" then imageRoot ++ "/" ++ src
         else src)) := by
  refine ⟨?_, ?_, ?_, ?_⟩
  · intro h
    simp [build_media_path, h]
  · intro h
    unfold build_media_path
    split_ifs <;> simp_all
  · intro h
    have hC : (src.data.any (· == '/') || src.data.any (· == '\\')) = true := by
      rcases h with h | h <;> simp [h]
    unfold build_media_path
    split_ifs <;> rfl
  · intro h0 h1 h2 h3 h4 h5
    have hne : (src == "") = false := by simp [h0]
    unfold build_media_path
    rw [hne, h1, h2, h3, h4, h5]
    by_cases hk : kind = "video"
    · simp [hk]
    · by_cases hk2 : kind = "image" <;> simp [hk, hk2]

/-- C9 witness: concrete instance of `c9_build_media_path_cases`: the bare
filename `clip.mp4` of kind `video` is joined against the videos root. -/
theorem c9_build_media_path_cases_witness :
    build_media_path "/m/videos" "/m/images" "clip.mp4" "video" = "/m/videos/clip.mp4" := by
  have h := (c9_build_media_path_cases "/m/videos" "/m/images" "clip.mp4" "video").2.2.2
    (by decide) (by decide) (by decide) (by decide) (by decide) (by decide)
  simpa using h

/-! ## Lemmas about dict operations and `normalize_playlist` -/

theorem jget_jset_self (fs : List (String × JVal)) (k : String) (v : JVal) :
    jget (jset fs k v) k = some v := by
  induction fs with
  | nil => simp [jset, jget]
  | cons p rest ih =>
    obtain ⟨k2, v2⟩ := p
    by_cases h : k2 == k
    · simp [jset, jget, h]
    · simp [jset, jget, h, ih]

theorem jget_append_some {fs : List (String × JVal)} {k : String} {v : JVal}
    (l : List (String × JVal)) (h : jget fs k = some v) :
    jget (fs ++ l) k = some v := by
  induction fs with
  | nil => simp [jget] at h
  | cons p rest ih =>
    obtain ⟨k2, v2⟩ := p
    by_cases hk : k2 == k
    · simp [jget, hk] at h ⊢
      exact h
    · simp [jget, hk] at h ⊢
      exact ih h

theorem jget_append_none {fs : List (String × JVal)} {k : String}
    (l : List (String × JVal)) (h : jget fs k = none) :
    jget (fs ++ l) k = jget l k := by
  induction fs with
  | nil => simp
  | cons p rest ih =>
    obtain ⟨k2, v2⟩ := p
    by_cases hk : k2 == k
    · simp [jget, hk] at h
    · simp [jget, hk] at h ⊢
      exact ih h

theorem jset_noop {fs : List (String × JVal)} {k : String} {v : JVal}
    (h : jget fs k = some v) : jset fs k v = fs := by
  induction fs with
  | nil => simp [jget] at h
  | cons p rest ih =>
    obtain ⟨k2, v2⟩ := p
    by_cases hk : k2 == k
    · simp [jget, hk] at h
      simp [jset, hk, h]
    · simp [jget, hk] at h
      simp [jset, hk, ih h]

theorem jsetdefault_noop {fs : List (String × JVal)} {k : String}
    (v : JVal) (h : (jget fs k).isSome) : jsetdefault fs k v = fs := by
  simp [jsetdefault, h]

theorem jget_jsetdefault_some {fs : List (String × JVal)} {k : String} {v : JVal}
    (k2 : String) (v2 : JVal) (h : jget fs k = some v) :
    jget (jsetdefault fs k2 v2) k = some v := by
  by_cases h2 : (jget fs k2).isSome
  · simp [jsetdefault, h2, h]
  · simp only [jsetdefault, h2, if_false]
    exact jget_append_some _ h

theorem jget_jsetdefault_self (fs : List (String × JVal)) (k : String) (v : JVal) :
    (jget (jsetdefault fs k v) k).isSome := by
  by_cases h : (jget fs k).isSome
  · simp [jsetdefault, h]
  · have hn : jget fs k = none := Option.not_isSome_iff_eq_none.mp h
    simp [jsetdefault, hn, jget_append_none _ hn, jget]

theorem jget_jsetdefault_isSome {fs : List (String × JVal)} {k : String}
    (k2 : String) (v2 : JVal) (h : (jget fs k).isSome) :
    (jget (jsetdefault fs k2 v2) k).isSome := by
  obtain ⟨v, hv⟩ := Option.isSome_iff_exists.mp h
  rw [jget_jsetdefault_some k2 v2 hv]
  rfl

theorem foldl_sdef_pres_some (ps : List (String × JVal)) :
    ∀ (fs : List (String × JVal)) (k : String) (v : JVal), jget fs k = some v →
      jget (ps.foldl (fun acc kv => jsetdefault acc kv.1 kv.2) fs) k = some v := by
  induction ps with
  | nil => intro fs k v h; simpa using h
  | cons p rest ih =>
    intro fs k v h
    exact ih _ _ _ (jget_jsetdefault_some p.1 p.2 h)

theorem foldl_sdef_pres_isSome (ps : List (String × JVal)) :
    ∀ (fs : List (String × JVal)) (k : String), (jget fs k).isSome →
      (jget (ps.foldl (fun acc kv => jsetdefault acc kv.1 kv.2) fs) k).isSome := by
  induction ps with
  | nil => intro fs k h; simpa using h
  | cons p rest ih =>
    intro fs k h
    exact ih _ _ (jget_jsetdefault_isSome p.1 p.2 h)

theorem foldl_sdef_all_some (ps : List (String × JVal)) :
    ∀ (fs : List (String × JVal)) (kv : String × JVal), kv ∈ ps →
      (jget (ps.foldl (fun acc kv => jsetdefault acc kv.1 kv.2) fs) kv.1).isSome := by
  induction ps with
  | nil => intro fs kv h; simp at h
  | cons p rest ih =>
    intro fs kv h
    rcases List.mem_cons.mp h with h | h
    · subst h
      exact foldl_sdef_pres_isSome rest _ _ (jget_jsetdefault_self fs kv.1 kv.2)
    · exact ih _ _ h

theorem foldl_sdef_noop (ps : List (String × JVal)) :
    ∀ fs : List (String × JVal), (∀ kv ∈ ps, (jget fs kv.1).isSome) →
      ps.foldl (fun acc kv => jsetdefault acc kv.1 kv.2) fs = fs := by
  induction ps with
  | nil => intro fs _; rfl
  | cons p rest ih =>
    intro fs h
    have h1 : (jget fs p.1).isSome := h p (by simp)
    have h2 := jsetdefault_noop p.2 h1
    simp only [List.foldl_cons, h2]
    exact ih fs fun kv hkv => h kv (by simp [hkv])

theorem alias_items_noop {fs : List (String × JVal)}
    (h : (jget fs "items").isSome) : alias_items fs = fs := by
  obtain ⟨v, hv⟩ := Option.isSome_iff_exists.mp h
  simp [alias_items, hv]

theorem alias_kind_idem (ifs : List (String × JVal)) :
    alias_kind (alias_kind ifs) = alias_kind ifs := by
  by_cases h : ((jget ifs "kind").isNone && (jget ifs "type").isSome) = true
  · have h2 := jget_jset_self (jerase ifs "type") "kind" ((jget ifs "type").getD .null)
    simp [alias_kind, h, h2]
  · simp [alias_kind, h]

theorem filterMap_norm_item_idem (xs : List JVal) :
    (xs.filterMap norm_item).filterMap norm_item = xs.filterMap norm_item := by
  induction xs with
  | nil => rfl
  | cons x rest ih =>
    cases x with
    | jdict ifs => simp [List.filterMap_cons, norm_item, alias_kind_idem, ih]
    | null => simpa [List.filterMap_cons, norm_item] using ih
    | jbool b => simpa [List.filterMap_cons, norm_item] using ih
    | jint n => simpa [List.filterMap_cons, norm_item] using ih
    | jstr s => simpa [List.filterMap_cons, norm_item] using ih
    | jlist ys => simpa [List.filterMap_cons, norm_item] using ih

/-- The `"items"` key of a normalized field list holds exactly the
filtered-and-alias-rewritten item list. -/
theorem normalize_fields_items (fs : List (String × JVal)) :
    jget (normalize_fields fs) "items" =
      some (.jlist ((items_of (alias_items fs)).filterMap norm_item)) := by
  unfold normalize_fields apply_defaults
  exact foldl_sdef_pres_some _ _ _ _ (jget_jset_self _ _ _)

theorem normalize_fields_idem (fs : List (String × JVal)) :
    normalize_fields (normalize_fields fs) = normalize_fields fs := by
  have hitems := normalize_fields_items fs
  have hsome : (jget (normalize_fields fs) "items").isSome := by
    rw [hitems]; rfl
  have halias : alias_items (normalize_fields fs) = normalize_fields fs :=
    alias_items_noop hsome
  have hdef : apply_defaults (normalize_fields fs) = normalize_fields fs := by
    refine foldl_sdef_noop default_pairs _ fun kv hkv => ?_
    show (jget (normalize_fields fs) kv.1).isSome
    unfold normalize_fields apply_defaults
    exact foldl_sdef_all_some default_pairs _ kv hkv
  calc normalize_fields (normalize_fields fs)
      = apply_defaults (jset (alias_items (normalize_fields fs)) "items"
          (.jlist ((items_of (alias_items (normalize_fields fs))).filterMap norm_item))) := rfl
    _ = apply_defaults (jset (normalize_fields fs) "items"
          (.jlist (((items_of (alias_items fs)).filterMap norm_item).filterMap norm_item))) := by
          rw [halias, items_of, hitems]
    _ = apply_defaults (jset (normalize_fields fs) "items"
          (.jlist ((items_of (alias_items fs)).filterMap norm_item))) := by
          rw [filterMap_norm_item_idem]
    _ = apply_defaults (normalize_fields fs) := by rw [jset_noop hitems]
    _ = normalize_fields fs := hdef

/-! ## Claim C4 — idempotence of playlist normalization -/

/-- `JVal` observation used to separate the two sides of the C4
counterexample: the number of top-level keys of a mapping. -/
def jdictLen : JVal → Nat
  | .jdict fs => fs.length
  | _ => 0

/-- C4 counterexample.  The claim includes non-mapping values among the
structurally valid inputs of `normalize_playlist`, but normalization is
not idempotent there: `normalize_playlist(None)` returns the bare mapping
`{"items": []}` (source lines 616–617, which return early without the
`setdefault` calls), while applying `normalize_playlist` to that result
additionally installs the seven default keys, giving a different
mapping. -/
theorem c4_normalize_idempotent_counterexample :
    normalize_playlist (normalize_playlist JVal.null) ≠ normalize_playlist JVal.null := by
  intro h
  have h8 : jdictLen (normalize_playlist (normalize_playlist JVal.null)) = 8 := rfl
  rw [h] at h8
  have h1 : jdictLen (normalize_playlist JVal.null) = 1 := rfl
  rw [h1] at h8
  exact absurd h8 (by decide)

/-- C4 (amended): playlist normalization is idempotent on every
structurally valid *mapping* input (including mappings using the legacy
aliases `"list"` for `"items"` and `"type"` for `"kind"`); for a
non-mapping input the first application returns the bare `{"items": []}`,
which is not a fixed point because a second application installs the seven
default keys. -/
theorem c4_normalize_idempotent_on_mappings (data : JVal)
    (hdict : jIsDict data = true) (_hvalid : struct_valid data = true) :
    normalize_playlist (normalize_playlist data) = normalize_playlist data := by
  cases data <;> simp [jIsDict] at hdict
  simp [normalize_playlist, normalize_fields_idem]

/-- C4 witness: concrete instance of `c4_normalize_idempotent_on_mappings`
on a mapping using both legacy aliases and containing a non-mapping
element. -/
theorem c4_normalize_idempotent_on_mappings_witness :
    normalize_playlist (normalize_playlist
        (.jdict [("list", .jlist [.jint 3, .jdict [("type", .jstr "image")]])])) =
      normalize_playlist
        (.jdict [("list", .jlist [.jint 3, .jdict [("type", .jstr "image")]])]) :=
  c4_normalize_idempotent_on_mappings
    (.jdict [("list", .jlist [.jint 3, .jdict [("type", .jstr "image")]])]) rfl rfl

/-! ## Claim C10 — dropped non-mapping items -/

/-- C10 counterexample.  The claim states that the output `"items"` list
consists of exactly those elements of the input's items that are
mappings.  For the input `{"items": [{"type": "image"}]}` the kept
element is rewritten in place by the legacy alias (source lines 627–628)
to `{"kind": "image"}`, which is not equal, as a value, to the supplied
element `{"type": "image"}`. -/
theorem c10_alias_rewrites_element_counterexample :
    jdget (normalize_playlist
        (.jdict [("items", .jlist [.jdict [("type", .jstr "image")]])])) "items" =
      some (.jlist [.jdict [("kind", .jstr "image")]]) ∧
    JVal.jdict [("kind", .jstr "image")] ≠ JVal.jdict [("type", .jstr "image")] := by
  constructor
  · rfl
  · intro h
    have h2 : jdget (JVal.jdict [("kind", .jstr "image")]) "kind" =
        some (.jstr "image") := rfl
    rw [h] at h2
    simp [jdget, jget] at h2

/-- C10 (amended): `normalize_playlist` always returns a mapping whose `"items"`
key holds the elements of the input's `"items"` (or legacy `"list"`) list
that are themselves mappings, in their original order, each with the
legacy `"type"` → `"kind"` alias applied; non-mapping elements are
silently dropped (`norm_item` keeps a value exactly when it is a
mapping), the kept elements equal the input elements verbatim whenever no
element uses the legacy alias, and a non-mapping input yields exactly
`{"items": []}`. -/
theorem c10_normalize_items_filtering (data : JVal) :
    jdget (normalize_playlist data) "items" =
      some (.jlist ((raw_items data).filterMap norm_item)) ∧
    (∀ v, (norm_item v).isSome = jIsDict v) ∧
    (∀ xs : List JVal, (∀ ifs, JVal.jdict ifs ∈ xs → alias_kind ifs = ifs) →
      xs.filterMap norm_item = xs.filter jIsDict) ∧
    (jIsDict data = false → normalize_playlist data = .jdict [("items", .jlist [])]) := by
  refine ⟨?_, ?_, ?_, ?_⟩
  · cases data with
    | jdict fs =>
      simpa [normalize_playlist, jdget, raw_items] using normalize_fields_items fs
    | null => rfl
    | jbool b => rfl
    | jint n => rfl
    | jstr s => rfl
    | jlist xs => rfl
  · intro v
    cases v <;> simp [norm_item, jIsDict]
  · intro xs
    induction xs with
    | nil => intro _; rfl
    | cons x rest ih =>
      intro h
      have hrest := ih fun ifs hm => h ifs (by simp [hm])
      cases x with
      | jdict ifs =>
        have hx : alias_kind ifs = ifs := h ifs (by simp)
        simp [List.filterMap_cons, List.filter_cons, norm_item, jIsDict, hx, hrest]
      | null => simpa [List.filterMap_cons, List.filter_cons, norm_item, jIsDict] using hrest
      | jbool b => simpa [List.filterMap_cons, List.filter_cons, norm_item, jIsDict] using hrest
      | jint n => simpa [List.filterMap_cons, List.filter_cons, norm_item, jIsDict] using hrest
      | jstr s => simpa [List.filterMap_cons, List.filter_cons, norm_item, jIsDict] using hrest
      | jlist ys => simpa [List.filterMap_cons, List.filter_cons, norm_item, jIsDict] using hrest
  · intro h
    cases data <;> first | rfl | simp [jIsDict] at h

/-- C10 witness: concrete instance of `c10_normalize_items_filtering`: a
non-mapping element (the number 7) is dropped and the mapping element is
kept. -/
theorem c10_normalize_items_filtering_witness :
    jdget (normalize_playlist
        (.jdict [("items", .jlist [.jint 7, .jdict [("kind", .jstr "image")]])])) "items" =
      some (.jlist [.jdict [("kind", .jstr "image")]]) := by
  have h := (c10_normalize_items_filtering
    (.jdict [("items", .jlist [.jint 7, .jdict [("kind", .jstr "image")]])])).1
  exact h.trans (by rfl)

/-! ## Claim C7 — at-most-once activation per wall-clock minute -/

theorem scheduler_run_skip (entries : List JVal) (m : Nat × Nat) :
    ∀ k, scheduler_run entries (some m) (List.replicate k m) =
      List.replicate k (false, ([] : List JVal)) := by
  intro k
  induction k with
  | zero => rfl
  | succ n ih => simp [List.replicate_succ, scheduler_run, scheduler_tick, ih]

theorem processedCount_replicate_skip (k : Nat) :
    processedCount (List.replicate k (false, ([] : List JVal))) = 0 := by
  simp [processedCount, List.filter_replicate]

theorem activationTicks_replicate_skip (e : JVal) (k : Nat) :
    activationTicks e (List.replicate k (false, ([] : List JVal))) = 0 := by
  simp [activationTicks, List.filter_replicate]

/-- C7: over any run of scheduler ticks that all observe the same
wall-clock minute `m` (the sub-minute 10 s polling of
`scheduler_thread_fn`), at most one tick is processed —
`last_check_minute` deduplicates the rest — hence any given entry
activates on at most one tick of the run; and if the run is non-empty and
the minute was not already the last processed one, exactly one tick is
processed. -/
theorem c7_scheduler_once_per_minute (entries : List JVal)
    (last : Option (Nat × Nat)) (m : Nat × Nat) (k : Nat) (e : JVal) :
    processedCount (scheduler_run entries last (List.replicate k m)) ≤ 1 ∧
    activationTicks e (scheduler_run entries last (List.replicate k m)) ≤ 1 ∧
    (0 < k → last ≠ some m →
      processedCount (scheduler_run entries last (List.replicate k m)) = 1) := by
  cases k with
  | zero =>
    refine ⟨by simp [scheduler_run, processedCount], by simp [scheduler_run, activationTicks], ?_⟩
    intro h
    omega
  | succ n =>
    by_cases hl : last = some m
    · subst hl
      rw [scheduler_run_skip]
      refine ⟨by rw [processedCount_replicate_skip]; exact Nat.zero_le 1,
        by rw [activationTicks_replicate_skip]; exact Nat.zero_le 1, ?_⟩
      intro _ hne
      exact absurd rfl hne
    · have hrun : scheduler_run entries last (List.replicate (n + 1) m) =
          (true, entries.filter (sched_entry_fires m.1 m.2)) ::
            List.replicate n (false, ([] : List JVal)) := by
        simp [List.replicate_succ, scheduler_run, scheduler_tick, hl, scheduler_run_skip]
      rw [hrun]
      refine ⟨?_, ?_, fun _ _ => ?_⟩
      · simp [processedCount, List.filter, processedCount_replicate_skip]
      · by_cases ha : (entries.filter (sched_entry_fires m.1 m.2)).any fun x => jvalBeq x e
        · simp [activationTicks, List.filter, ha, activationTicks_replicate_skip]
        · simp [activationTicks, List.filter, ha, activationTicks_replicate_skip]
      · simp [processedCount, List.filter, processedCount_replicate_skip]

/-- C7 witness: concrete instance of `c7_scheduler_once_per_minute`: three
10 s ticks inside the minute 09:30 process it exactly once. -/
theorem c7_scheduler_once_per_minute_witness :
    processedCount (scheduler_run
      [.jdict [("name", .jstr "morning"), ("start_time", .jstr "09:30"),
               ("playlist", .jdict [("items", .jlist [.jdict []])])]]
      none (List.replicate 3 (9, 30))) = 1 :=
  (c7_scheduler_once_per_minute
    [.jdict [("name", .jstr "morning"), ("start_time", .jstr "09:30"),
             ("playlist", .jdict [("items", .jlist [.jdict []])])]]
    none (9, 30) 3
    (.jdict [("name", .jstr "morning"), ("start_time", .jstr "09:30"),
             ("playlist", .jdict [("items", .jlist [.jdict []])])])).2.2
    (by decide) (by decide)

/-! ## Claim C8 — rejection paths of `scheduler.add` -/

/-- C8: each malformed `scheduler.add` payload is rejected with its
descriptive status event — missing/falsy `name`, `start_time` or
`playlist` publishes the missing-field error; an unparseable `start_time`
the invalid-time error; an empty normalized item list the must-include-items
error; a duplicate `(name, start_time)` pair the already-exists warning —
and every non-success outcome leaves the `scheduled_playlists` collection
of the engine state exactly unchanged. -/
theorem c8_scheduler_add_rejection (data : List (String × JVal)) (scheduled : List JVal) :
    ((scheduler_add data scheduled).1 ≠ .success →
      (scheduler_add data scheduled).2 = scheduled) ∧
    ((optFalsy (jget data "name") || optFalsy (jget data "start_time") ||
        optFalsy (jget data "playlist")) = true →
      (scheduler_add data scheduled).1 = .errMissing) ∧
    ((optFalsy (jget data "name") || optFalsy (jget data "start_time") ||
        optFalsy (jget data "playlist")) = false →
      (parse_time_jval (jget data "start_time")).isNone = true →
      (scheduler_add data scheduled).1 = .errTime) ∧
    ((optFalsy (jget data "name") || optFalsy (jget data "start_time") ||
        optFalsy (jget data "playlist")) = false →
      (parse_time_jval (jget data "start_time")).isNone = false →
      optFalsy (jdget (normalize_playlist ((jget data "playlist").getD .null)) "items") = true →
      (scheduler_add data scheduled).1 = .errItems) ∧
    ((optFalsy (jget data "name") || optFalsy (jget data "start_time") ||
        optFalsy (jget data "playlist")) = false →
      (parse_time_jval (jget data "start_time")).isNone = false →
      optFalsy (jdget (normalize_playlist ((jget data "playlist").getD .null)) "items") = false →
      (scheduled.any fun s =>
        optBeq (jdget s "name") (jget data "name") &&
          optBeq (jdget s "start_time") (jget data "start_time")) = true →
      (scheduler_add data scheduled).1 = .warnDup) := by
  refine ⟨?_, ?_, ?_, ?_, ?_⟩
  · intro hne
    unfold scheduler_add at hne ⊢
    split_ifs at hne ⊢ <;> simp_all
  · intro h1
    simp [scheduler_add, h1]
  · intro h1 h2
    simp [scheduler_add, h1, h2]
  · intro h1 h2 h3
    simp [scheduler_add, h1, h2, h3]
  · intro h1 h2 h3 h4
    simp [scheduler_add, h1, h2, h3, h4]

/-- C8 witness: concrete instance of `c8_scheduler_add_rejection`: a
payload with no fields at all is rejected with the missing-field error and
leaves the scheduled list unchanged. -/
theorem c8_scheduler_add_rejection_witness :
    (scheduler_add [] [.jdict [("name", .jstr "x")]]).1 = .errMissing ∧
    (scheduler_add [] [.jdict [("name", .jstr "x")]]).2 = [.jdict [("name", .jstr "x")]] := by
  refine ⟨(c8_scheduler_add_rejection [] [.jdict [("name", .jstr "x")]]).2.1 (by decide), ?_⟩
  exact (c8_scheduler_add_rejection [] [.jdict [("name", .jstr "x")]]).1 (by decide)

/-! ## Claim C6 — `get_state` snapshots -/

/-- C6 counterexample.  The claim states that a value obtained from
`get_state` shares no mutable structure with the engine's state, naming
the scheduled-playlists list in particular.  But `get_state` is
`dict(state)` — a *shallow* copy: the snapshot is a fresh top-level dict
whose values are the same references.  Concretely, start from a heap whose
state dict (address 0) maps `"scheduled_playlists"` to the list object at
address 1; `get_state` allocates the snapshot at address 2 holding the
same reference to address 1; appending to the list obtained from the
snapshot therefore changes the object the engine's own state reaches
under `"scheduled_playlists"`. -/
theorem c6_snapshot_counterexample :
    hlookup ((get_state [(0, .hdict [("scheduled_playlists", .href 1)]), (1, .harr [])] 2).1) 2 =
      some (.hdict [("scheduled_playlists", .href 1)]) ∧
    engine_field_obj
        (harr_append
          ((get_state [(0, .hdict [("scheduled_playlists", .href 1)]), (1, .harr [])] 2).1)
          1 (.prim "entry"))
        "scheduled_playlists" ≠
      engine_field_obj [(0, .hdict [("scheduled_playlists", .href 1)]), (1, .harr [])]
        "scheduled_playlists" := by
  decide

theorem hlookup_hwrite_ne {h : Heap} {a b : Nat} (o : HObj) (hne : b ≠ a) :
    hlookup (hwrite h a o) b = hlookup h b := by
  induction h with
  | nil =>
    simp [hwrite, hlookup]
    intro hab
    exact absurd hab.symm hne
  | cons p rest ih =>
    obtain ⟨c, o2⟩ := p
    by_cases hc : c == a
    · have hcb : (c == b) = false := by
        simp at hc
        subst hc
        simpa using fun hab => hne hab.symm
      simp [hwrite, hlookup, hc, hcb]
    · simp [hwrite, hlookup, hc, ih]

theorem hlookup_hwrite_self (h : Heap) (a : Nat) (o : HObj) :
    hlookup (hwrite h a o) a = some o := by
  induction h with
  | nil => simp [hwrite, hlookup]
  | cons p rest ih =>
    obtain ⟨c, o2⟩ := p
    by_cases hc : c == a
    · simp [hwrite, hlookup, hc]
    · simp [hwrite, hlookup, hc, ih]

/-- C6 (amended): `get_state` returns a *shallow* snapshot: the snapshot
is a fresh top-level dict, so taking it changes no existing object, and
rebinding a top-level field of the snapshot leaves the engine's state
dict unchanged; but nested mutable values are shared by reference with
the internal state (see the counterexample), so only top-level reads are
isolated.  `set_state` updates exactly the given fields of the single
state dict in one step (under the state lock in the source). -/
theorem c6_shallow_snapshot (h : Heap) (fs : List (String × HVal)) (fresh : Nat)
    (k : String) (v : HVal) (kvs : List (String × HVal))
    (h0 : hlookup h 0 = some (.hdict fs)) (hfresh0 : fresh ≠ 0)
    (_hfresh : hlookup h fresh = none) :
    (∀ a, a ≠ fresh → hlookup ((get_state h fresh).1) a = hlookup h a) ∧
    hlookup (hwrite ((get_state h fresh).1) fresh (.hdict (hfset fs k v))) 0 =
      some (.hdict fs) ∧
    hlookup (set_state h kvs) 0 =
      some (.hdict (kvs.foldl (fun acc kv => hfset acc kv.1 kv.2) fs)) := by
  have hget : (get_state h fresh).1 = hwrite h fresh (.hdict fs) := by
    simp [get_state, h0]
  refine ⟨?_, ?_, ?_⟩
  · intro a ha
    rw [hget, hlookup_hwrite_ne _ ha]
  · rw [hget, hlookup_hwrite_ne _ hfresh0.symm, hlookup_hwrite_ne _ hfresh0.symm]
    exact h0
  · simp [set_state, h0, hlookup_hwrite_self]

/-- C6 witness: concrete instance of `c6_shallow_snapshot`: rebinding the
`"paused"` field of a snapshot taken at address 7 leaves the engine's
state dict (address 0) unchanged. -/
theorem c6_shallow_snapshot_witness :
    hlookup
      (hwrite ((get_state [(0, .hdict [("paused", .prim "False")])] 7).1) 7
        (.hdict (hfset [("paused", .prim "False")] "paused" (.prim "True")))) 0 =
      some (.hdict [("paused", .prim "False")]) :=
  (c6_shallow_snapshot [(0, .hdict [("paused", .prim "False")])]
    [("paused", .prim "False")] 7 "paused" (.prim "True") []
    (by decide) (by decide) (by decide)).2.1

end PabsTv
